import Mathlib

/-!
Verification development for the X.509 certificate layer
(`src/cert/x509cert/x509cert.cpp`).

The certificate decoder, predicate engine, equality and renderer are
embedded shallowly.  The generic ASN.1 BER engine, the OID registry, PEM
and hex codecs and the public-key parser are external collaborators of
that layer; the embedding represents their results abstractly (the
TBSCertificate arrives pre-navigated, registries are fixed functions).
-/

namespace Botan

/-- A value held by a `Data_Store`.  The store of the original keeps every
value as a string in a canonical form with typed getters; here the three
canonical shapes (string, unsigned integer, raw bytes) are kept as a tagged
value, as the specification's design notes describe. -/
inductive DSVal where
  | vstr : List Char → DSVal
  | vnat : Nat → DSVal
  | vbytes : List Nat → DSVal
deriving DecidableEq

/-- One entry of a `Data_Store`: a key and one value.  Duplicate keys are
legal and meaningful. -/
abbrev Entry := String × DSVal

/-- Modelled from the spec: `Data_Store` (not under `src/`) is an ordered
multimap from string key to one-or-more values. -/
abbrev DataStore := List Entry

/-- All values stored under a key, in store order. -/
def getAll (s : DataStore) (k : String) : List DSVal :=
  (s.filter (fun e => e.fst == k)).map Prod.snd

/-- The 32-bit reading of a stored value: integers are truncated to 32
bits, non-integer shapes read as 0 (a shape mismatch is store-internal
corruption, which a well-formed decode cannot produce). -/
def DSVal.toU32 : DSVal → Nat
  | DSVal.vnat n => n % 4294967296
  | _ => 0

/-- Modelled from the spec: `Data_Store.get1_u32bit` (not under `src/`)
returns the first value stored under the key, read as a 32-bit integer, or
the default when the key is absent. -/
def get1_u32bit (s : DataStore) (k : String) (dflt : Nat) : Nat :=
  match getAll s k with
  | [] => dflt
  | v :: _ => v.toU32

/-- Modelled from the spec: `Data_Store.has_value` (not under `src/`)
tells whether at least one value is stored under the key. -/
def has_value (s : DataStore) (k : String) : Bool :=
  s.any (fun e => e.fst == k)

/-- Modelled from the spec: `Data_Store.get` (not under `src/`) returns
all string values stored under the key; absence yields an empty sequence,
never an error. -/
def getStrings (s : DataStore) (k : String) : List (List Char) :=
  (getAll s k).filterMap (fun v =>
    match v with
    | DSVal.vstr cs => some cs
    | _ => none)

/-- Modelled from the spec: `Data_Store.get1_memvec` (not under `src/`)
returns the first byte-string value under the key, or an empty buffer. -/
def get1_memvec (s : DataStore) (k : String) : List Nat :=
  match getAll s k with
  | [] => []
  | DSVal.vbytes b :: _ => b
  | _ :: _ => []

/-- Modelled from the spec: `Data_Store.get1` (not under `src/`) returns
the first string value under the key (empty when absent; a well-formed
decode always stores the fields this is used on). -/
def get1_str (s : DataStore) (k : String) : List Char :=
  match getAll s k with
  | [] => []
  | DSVal.vstr cs :: _ => cs
  | _ :: _ => []

/-- Modelled from the spec: `X509_DN.deref_info_field` (not under `src/`)
resolves a friendly alias (for example "Name" maps to the naming-authority
key for common name) to its underlying store key; keys with no alias pass
through unchanged. -/
def deref_info_field (info : String) : String :=
  if info = "Name" ∨ info = "CommonName" then "X520.CommonName"
  else if info = "Country" then "X520.Country"
  else if info = "Organization" then "X520.Organization"
  else if info = "Organizational Unit" ∨ info = "OrgUnit" then "X520.OrganizationalUnit"
  else if info = "Locality" then "X520.Locality"
  else if info = "State" ∨ info = "Province" then "X520.State"
  else if info = "Email" then "RFC822"
  else info

/-- Modelled from the spec: the Key Usage bit-flag values live in a header
that is not under `src/`; the exact numeric values are immaterial to the
claims, only that the bits are distinct and the sentinel is a value no bit
combination produces by masking.  "No constraints recorded" sentinel. -/
def NO_CONSTRAINTS : Nat := 0

/-- Modelled from the spec: digital-signature key-usage bit. -/
def DIGITAL_SIGNATURE : Nat := 32768

/-- Modelled from the spec: non-repudiation key-usage bit. -/
def NON_REPUDIATION : Nat := 16384

/-- Modelled from the spec: key-encipherment key-usage bit. -/
def KEY_ENCIPHERMENT : Nat := 8192

/-- Modelled from the spec: data-encipherment key-usage bit. -/
def DATA_ENCIPHERMENT : Nat := 4096

/-- Modelled from the spec: key-agreement key-usage bit. -/
def KEY_AGREEMENT : Nat := 2048

/-- Modelled from the spec: certificate-signing key-usage bit. -/
def KEY_CERT_SIGN : Nat := 1024

/-- Modelled from the spec: CRL-signing key-usage bit. -/
def CRL_SIGN : Nat := 512

/-- Modelled from the spec: ASN.1 SEQUENCE tag value (header not under
`src/`). -/
def SEQUENCE : Nat := 16

/-- Modelled from the spec: ASN.1 CONSTRUCTED class bit. -/
def CONSTRUCTED : Nat := 32

/-- Modelled from the spec: ASN.1 CONTEXT SPECIFIC class bit. -/
def CONTEXT_SPECIFIC : Nat := 128

/-- Modelled from the spec: the tag of the empty BER object returned at the
end of input. -/
def NO_OBJECT : Nat := 0

/-- Modelled from the spec: the "no limit" sentinel for the path length
constraint (`Cert_Extension::NO_CERT_PATH_LIMIT`, header not under
`src/`): the largest 32-bit value. -/
def NO_CERT_PATH_LIMIT : Nat := 4294967295

/-- An algorithm identifier: an OID and its encoded parameters.  Compared
componentwise, as the external `AlgorithmIdentifier` is. -/
structure AlgId where
  oid : List Nat
  params : List Nat
deriving DecidableEq

/-- A BER object as the external decoder hands it over: type tag, class
tag and raw value bytes. -/
structure BerObj where
  type_tag : Nat
  class_tag : Nat
  value : List Nat
deriving DecidableEq

/-- A Distinguished Name as a sequence of (attribute-type key, value)
pairs, in insertion order. -/
abbrev DN := List (String × List Char)

/-- Modelled from the spec: `X509_DN` equality (not under `src/`) is
unordered-multiset equality over the (attribute-type, value) pairs, not
sequence equality. -/
def dnEq (a b : DN) : Bool :=
  decide (Multiset.ofList a = Multiset.ofList b)

/-- Modelled from the spec: `X509_DN.contents` (not under `src/`) lists the
DN's attributes as store entries keyed by attribute type. -/
def dnContents (d : DN) : List Entry :=
  d.map (fun p => (p.fst, DSVal.vstr p.snd))

/-- The v3-extensions position of the TBSCertificate as the BER decoder
delivers it: either nothing remains, or a BER object whose decoded
extension contributions to the subject and issuer stores are carried
alongside its tags (the per-extension decoding itself is the Extension
Processor collaborator). -/
inductive ExtsField where
  | noObject : ExtsField
  | obj : Nat → Nat → List Entry → List Entry → ExtsField
deriving DecidableEq

/-- The subject-store contributions of the extensions position. -/
def ExtsField.subjEntries : ExtsField → List Entry
  | ExtsField.noObject => []
  | ExtsField.obj _ _ s _ => s

/-- The issuer-store contributions of the extensions position. -/
def ExtsField.issuerEntries : ExtsField → List Entry
  | ExtsField.noObject => []
  | ExtsField.obj _ _ _ i => i

/-- The TBSCertificate, structurally pre-navigated by the external BER
collaborator: the fields `force_decode` reads, in reading order. -/
structure TBS where
  version : Nat
  serial : List Nat
  sig_algo_inner : AlgId
  dn_issuer : DN
  start : List Char
  endT : List Char
  dn_subject : DN
  public_key : BerObj
  v2_issuer_key_id : List Nat
  v2_subject_key_id : List Nat
  exts : ExtsField
  more_items : Bool
deriving DecidableEq

/-- A decoded certificate: the envelope pieces (signature bytes, signature
algorithm, raw signed-body bytes) and the decoded state (self-signed flag
and the two attribute stores). -/
structure X509_Certificate where
  sig : List Nat
  sig_algo : AlgId
  tbs_bits : List Nat
  self_signed : Bool
  issuer : DataStore
  subject : DataStore
deriving DecidableEq

/-- `X509_Certificate::x509_version`: the stored version field plus 1. -/
def x509_version (c : X509_Certificate) : Nat :=
  get1_u32bit c.subject "X509.Certificate.version" 0 + 1

/-- `X509_Certificate::start_time`. -/
def start_time (c : X509_Certificate) : List Char :=
  get1_str c.subject "X509.Certificate.start"

/-- `X509_Certificate::end_time`. -/
def end_time (c : X509_Certificate) : List Char :=
  get1_str c.subject "X509.Certificate.end"

/-- `X509_Certificate::subject_info`: all subject-store values of a field,
after alias resolution. -/
def subject_info (c : X509_Certificate) (what : String) : List (List Char) :=
  getStrings c.subject (deref_info_field what)

/-- `X509_Certificate::issuer_info`: all issuer-store values of a field,
after alias resolution. -/
def issuer_info (c : X509_Certificate) (what : String) : List (List Char) :=
  getStrings c.issuer (deref_info_field what)

/-- `X509_Certificate::constraints`: the Key Usage bit set, or the
"no constraints recorded" sentinel when the extension is absent. -/
def constraints (c : X509_Certificate) : Nat :=
  get1_u32bit c.subject "X509v3.KeyUsage" NO_CONSTRAINTS

/-- `X509_Certificate::is_CA_cert`: false when the Basic Constraints CA
flag reads 0; otherwise true exactly when the Key Usage bits include
certificate signing or are the sentinel. -/
def is_CA_cert (c : X509_Certificate) : Bool :=
  if get1_u32bit c.subject "X509v3.BasicConstraints.is_ca" 0 = 0 then false
  else if Nat.land (constraints c) KEY_CERT_SIGN ≠ 0 ∨ constraints c = NO_CONSTRAINTS then true
  else false

/-- `X509_Certificate::path_limit`: the stored path-length value,
defaulting to 0. -/
def path_limit (c : X509_Certificate) : Nat :=
  get1_u32bit c.subject "X509v3.BasicConstraints.path_constraint" 0

/-- `X509_Certificate::serial_number`. -/
def serial_number (c : X509_Certificate) : List Nat :=
  get1_memvec c.subject "X509.Certificate.serial"

/-- `X509_Certificate::authority_key_id`. -/
def authority_key_id (c : X509_Certificate) : List Nat :=
  get1_memvec c.issuer "X509v3.AuthorityKeyIdentifier"

/-- `X509_Certificate::subject_key_id`. -/
def subject_key_id (c : X509_Certificate) : List Nat :=
  get1_memvec c.subject "X509v3.SubjectKeyIdentifier"

/-- The test applied to one candidate certificate name inside
`cert_subject_dns_match`: an exact match, or a wildcard match when the
candidate is longer than two characters, starts with a star and a dot, the
input name is strictly longer than the candidate, and the input ends with
the candidate's substring from index 1. -/
def candMatch (name cn : List Char) : Bool :=
  if cn = name then true
  else if 2 < cn.length ∧ cn.take 2 = ['*', '.'] ∧ cn.length < name.length then
    List.isSuffixOf cn.tail name
  else false

/-- `cert_subject_dns_match`: whether any candidate name matches. -/
def cert_subject_dns_match (name : List Char) (cert_names : List (List Char)) : Bool :=
  cert_names.any (fun cn => candMatch name cn)

/-- `X509_Certificate::matches_dns_name`: the empty name never matches;
the DNS alternative names are tried first, the legacy common-name entries
second. -/
def matches_dns_name (c : X509_Certificate) (name : List Char) : Bool :=
  if name = [] then false
  else if cert_subject_dns_match name (subject_info c "DNS") then true
  else if cert_subject_dns_match name (subject_info c "Name") then true
  else false

/-- `X509_Certificate::operator==`: signature bytes, signature algorithm,
self-signed flag, issuer store and subject store, compared in that
order. -/
def certEq (a b : X509_Certificate) : Bool :=
  (a.sig == b.sig) &&
  (a.sig_algo == b.sig_algo) &&
  (a.self_signed == b.self_signed) &&
  (a.issuer == b.issuer) &&
  (a.subject == b.subject)

/-- `operator!=` on certificates: the negation of `operator==`. -/
def certNe (a b : X509_Certificate) : Bool :=
  !(certEq a b)

/-- The external collaborators `to_string` renders through, fixed for one
run: the OID-name registry (looked up on the dotted strings the store
holds, and on the signature algorithm identifier) and the public-key
decode-and-re-encode pipeline. -/
structure RenderEnv where
  oidLookup : List Char → List Char
  algoName : AlgId → List Char
  pubkeyPem : DSVal → List Char

/-- `lookup_oids`: each stored OID string through the registry. -/
def lookup_oids (env : RenderEnv) (l : List (List Char)) : List (List Char) :=
  l.map env.oidLookup

/-- `X509_Certificate::ex_constraints`: names of the Extended Key Usage
OIDs. -/
def ex_constraints (env : RenderEnv) (c : X509_Certificate) : List (List Char) :=
  lookup_oids env (getStrings c.subject "X509v3.ExtendedKeyUsage")

/-- `X509_Certificate::policies`: names of the Certificate Policy OIDs. -/
def policies (env : RenderEnv) (c : X509_Certificate) : List (List Char) :=
  lookup_oids env (getStrings c.subject "X509v3.CertificatePolicies")

/-- Modelled from the spec: one hexadecimal digit of the external hex
codec. -/
def hexDigit (n : Nat) : Char :=
  (String.toList "0123456789ABCDEF").getD n '0'

/-- Modelled from the spec: `hex_encode` (not under `src/`), two upper-case
digits per byte. -/
def hex_encode (bs : List Nat) : List Char :=
  (bs.map (fun b => [hexDigit (b / 16 % 16), hexDigit (b % 16)])).flatten

/-- The fixed, ordered field-name list `to_string` walks for the subject
and issuer blocks. -/
def dn_fields : List String :=
  ["Name", "Email", "Organization", "Organizational Unit", "Locality",
   "State", "Country", "IP", "DNS", "URI", "PKIX.XMPPAddr"]

/-- One block of `to_string`: for every field with values, the tag, the
field name, a colon, the blank-prefixed values and a newline. -/
def renderInfoLines (tag : List Char) (infoOf : String → List (List Char)) : List Char :=
  (dn_fields.map (fun f =>
    let vals := infoOf f
    if vals.isEmpty then []
    else tag ++ f.toList ++ [':'] ++ (vals.map (fun v => ' ' :: v)).flatten ++ ['\n'])).flatten

/-- The constraints section of `to_string` after its header line: " None"
for the sentinel, else the set bits in fixed order (with the original's
spelling). -/
def renderConstraints (k : Nat) : List Char :=
  if k = NO_CONSTRAINTS then String.toList " None\n"
  else
    (if Nat.land k DIGITAL_SIGNATURE ≠ 0 then String.toList "   Digital Signature\n" else []) ++
    (if Nat.land k NON_REPUDIATION ≠ 0 then String.toList "   Non-Repuidation\n" else []) ++
    (if Nat.land k KEY_ENCIPHERMENT ≠ 0 then String.toList "   Key Encipherment\n" else []) ++
    (if Nat.land k DATA_ENCIPHERMENT ≠ 0 then String.toList "   Data Encipherment\n" else []) ++
    (if Nat.land k KEY_AGREEMENT ≠ 0 then String.toList "   Key Agreement\n" else []) ++
    (if Nat.land k KEY_CERT_SIGN ≠ 0 then String.toList "   Cert Sign\n" else []) ++
    (if Nat.land k CRL_SIGN ≠ 0 then String.toList "   CRL Sign\n" else [])

/-- The stored encoded public key, as `subject_public_key` reads it before
handing it to the key-decode collaborator. -/
def pubkeyVal (c : X509_Certificate) : DSVal :=
  (getAll c.subject "X509.Certificate.public_key").headD (DSVal.vstr [])

/-- An indented OID-name list section of `to_string`. -/
def renderOidList (header : List Char) (l : List (List Char)) : List Char :=
  if l.isEmpty then []
  else header ++ (l.map (fun p => String.toList "   " ++ p ++ ['\n'])).flatten

/-- `X509_Certificate::to_string`: the deterministic multi-line textual
summary, built from the subject and issuer stores and the signature
algorithm through the fixed collaborators. -/
def to_string (env : RenderEnv) (c : X509_Certificate) : List Char :=
  renderInfoLines (String.toList "Subject ") (subject_info c) ++
  renderInfoLines (String.toList "Issuer ") (issuer_info c) ++
  String.toList "Version: " ++ Nat.toDigits 10 (x509_version c) ++ ['\n'] ++
  String.toList "Not valid before: " ++ start_time c ++ ['\n'] ++
  String.toList "Not valid after: " ++ end_time c ++ ['\n'] ++
  String.toList "Constraints:\n" ++ renderConstraints (constraints c) ++
  renderOidList (String.toList "Policies: \n") (policies env c) ++
  renderOidList (String.toList "Extended Constraints:\n") (ex_constraints env c) ++
  String.toList "Signature algorithm: " ++ env.algoName c.sig_algo ++ ['\n'] ++
  String.toList "Serial number: " ++ hex_encode (serial_number c) ++ ['\n'] ++
  (if (authority_key_id c).isEmpty then []
   else String.toList "Authority keyid: " ++ hex_encode (authority_key_id c) ++ ['\n']) ++
  (if (subject_key_id c).isEmpty then []
   else String.toList "Subject keyid: " ++ hex_encode (subject_key_id c) ++ ['\n']) ++
  String.toList "Public Key:\n" ++ env.pubkeyPem (pubkeyVal c)

/-- The decode errors `force_decode` can raise, one constructor per throw
site. -/
inductive X509Error where
  | unknownVersion : Nat → X509Error
  | algoMismatch : X509Error
  | pubkeyBadTag : Nat → Nat → X509Error
  | extsBadTag : Nat → Nat → X509Error
  | trailingItems : X509Error
deriving DecidableEq

/-- The two error kinds of the layer: `Decoding_Error` and
`BER_Bad_Tag`. -/
inductive ErrKind where
  | decodingError : ErrKind
  | berBadTag : ErrKind
deriving DecidableEq

/-- Which exception type each throw site raises. -/
def X509Error.kind : X509Error → ErrKind
  | X509Error.unknownVersion _ => ErrKind.decodingError
  | X509Error.algoMismatch => ErrKind.decodingError
  | X509Error.pubkeyBadTag _ _ => ErrKind.berBadTag
  | X509Error.extsBadTag _ _ => ErrKind.berBadTag
  | X509Error.trailingItems => ErrKind.decodingError

/-- Modelled from the spec: `ASN1::put_in_sequence` (not under `src/`)
wraps raw bytes in a constructed SEQUENCE for re-encoding. -/
def put_in_sequence (v : List Nat) : List Nat :=
  (SEQUENCE + CONSTRUCTED) :: v

/-- The extensions step of `force_decode`: a constructed context tag 3 is
handed to the Extension Processor, an end-of-input object or a NO_OBJECT
tag contributes nothing, any other tag is a `BER_Bad_Tag`. -/
def extContrib : ExtsField → Except X509Error (List Entry × List Entry)
  | ExtsField.noObject => Except.ok ([], [])
  | ExtsField.obj tt ct es ei =>
    if tt = 3 ∧ ct = CONSTRUCTED + CONTEXT_SPECIFIC then Except.ok (es, ei)
    else if tt ≠ NO_OBJECT then Except.error (X509Error.extsBadTag tt ct)
    else Except.ok ([], [])

/-- The scalar fields `force_decode` adds to the subject store after the
extensions, in adding order. -/
def scalarSubjectEntries (t : TBS) : List Entry :=
  [("X509.Certificate.version", DSVal.vnat t.version),
   ("X509.Certificate.serial", DSVal.vbytes t.serial),
   ("X509.Certificate.start", DSVal.vstr t.start),
   ("X509.Certificate.end", DSVal.vstr t.endT),
   ("X509.Certificate.v2.key_id", DSVal.vbytes t.v2_subject_key_id),
   ("X509.Certificate.public_key", DSVal.vbytes (put_in_sequence t.public_key.value))]

/-- The certificate built once every structural check has passed: DN
contents, extension contributions and scalar fields fill the stores, the
self-signed flag is the DN comparison, and a CA with no recorded
path-length value gets the version-dependent default injected. -/
def buildCert (sig : List Nat) (sig_algo : AlgId) (tbs_bits : List Nat) (t : TBS)
    (extS extI : List Entry) : X509_Certificate :=
  let subject0 := dnContents t.dn_subject ++ (extS ++ scalarSubjectEntries t)
  let issuer0 := dnContents t.dn_issuer ++ (extI ++
    [("X509.Certificate.v2.key_id", DSVal.vbytes t.v2_issuer_key_id)])
  let cert0 : X509_Certificate :=
    ⟨sig, sig_algo, tbs_bits, dnEq t.dn_subject t.dn_issuer, issuer0, subject0⟩
  if is_CA_cert cert0 ∧ has_value subject0 "X509v3.BasicConstraints.path_constraint" = false then
    ⟨sig, sig_algo, tbs_bits, dnEq t.dn_subject t.dn_issuer, issuer0,
      subject0 ++
        [("X509v3.BasicConstraints.path_constraint",
          DSVal.vnat (if x509_version cert0 < 3 then NO_CERT_PATH_LIMIT else 0))]⟩
  else cert0

/-- `X509_Certificate::force_decode`: the version bound, the inner/outer
signature-algorithm comparison, the public-key tag check, the extensions
step and the trailing-content check, then the certificate is built. -/
def force_decode (sig : List Nat) (sig_algo : AlgId) (tbs_bits : List Nat) (t : TBS) :
    Except X509Error X509_Certificate :=
  if 2 < t.version then Except.error (X509Error.unknownVersion t.version)
  else if sig_algo ≠ t.sig_algo_inner then Except.error X509Error.algoMismatch
  else if ¬ (t.public_key.type_tag = SEQUENCE ∧ t.public_key.class_tag = CONSTRUCTED) then
    Except.error (X509Error.pubkeyBadTag t.public_key.type_tag t.public_key.class_tag)
  else
    match extContrib t.exts with
    | Except.error e => Except.error e
    | Except.ok (extS, extI) =>
      if t.more_items then Except.error X509Error.trailingItems
      else Except.ok (buildCert sig sig_algo tbs_bits t extS extI)

/-- The per-candidate rule exactly as the specification words it: an exact
match, or, when the candidate starts with a star and a dot and the input is
strictly longer, equality of the input's trailing suffix of length one less
than the candidate with the candidate from index 1.  No requirement on the
candidate's own length appears. -/
def specCandMatch (name cn : List Char) : Bool :=
  (cn == name) ||
  ((cn.take 2 == ['*', '.']) && decide (cn.length < name.length) &&
   (name.drop (name.length - (cn.length - 1)) == cn.drop 1))

/-- The specification's per-candidate rule with the one addition the code
makes: the candidate must be longer than two characters for the wildcard
path to apply. -/
def specCandMatchGuarded (name cn : List Char) : Bool :=
  (cn == name) ||
  (decide (2 < cn.length) && (cn.take 2 == ['*', '.']) &&
   decide (cn.length < name.length) &&
   (name.drop (name.length - (cn.length - 1)) == cn.drop 1))

/-- The matching algorithm as the specification describes it: empty input
never matches, the DNS entries are tried, then the legacy common-name
entries. -/
def spec_matches_dns_name (c : X509_Certificate) (name : List Char) : Bool :=
  if name = [] then false
  else
    (subject_info c "DNS").any (fun cn => specCandMatch name cn) ||
    (subject_info c "Name").any (fun cn => specCandMatch name cn)

/-- The specification's matching algorithm with the candidate-length
requirement added to the wildcard rule. -/
def spec_matches_dns_name_guarded (c : X509_Certificate) (name : List Char) : Bool :=
  if name = [] then false
  else
    (subject_info c "DNS").any (fun cn => specCandMatchGuarded name cn) ||
    (subject_info c "Name").any (fun cn => specCandMatchGuarded name cn)

/-- Whether a store holds no entry at all under a key. -/
def keyFreeB (s : DataStore) (k : String) : Bool :=
  s.all (fun e => e.fst != k)

/-- The non-version structural conditions decode success needs: matching
signature algorithms, the right public-key tags, an extensions position
the extensions step accepts, and no trailing content. -/
def restWellFormed (sa : AlgId) (t : TBS) : Prop :=
  sa = t.sig_algo_inner ∧
  t.public_key.type_tag = SEQUENCE ∧
  t.public_key.class_tag = CONSTRUCTED ∧
  (∃ p, extContrib t.exts = Except.ok p) ∧
  t.more_items = false

/-- A fixed render environment for concrete evaluations. -/
def envTriv : RenderEnv :=
  ⟨fun x => x, fun a => hex_encode a.oid, fun _ => []⟩

/-- Two concrete certificates differing only in the raw signed-body
bytes. -/
def wCert9a : X509_Certificate :=
  ⟨[1], ⟨[1, 2], []⟩, [7], false, [], [("DNS", DSVal.vstr (String.toList "a"))]⟩

/-- The second of the two, with other signed-body bytes. -/
def wCert9b : X509_Certificate :=
  ⟨[1], ⟨[1, 2], []⟩, [9], false, [], [("DNS", DSVal.vstr (String.toList "a"))]⟩

/-- A certificate whose single DNS alternative name is the two-character
entry "*.". -/
def starDotCert : X509_Certificate :=
  ⟨[], ⟨[], []⟩, [], false, [], [("DNS", DSVal.vstr ['*', '.'])]⟩

/-- A certificate with one DNS alternative name. -/
def dnsCert (v : String) : X509_Certificate :=
  ⟨[], ⟨[], []⟩, [], false, [], [("DNS", DSVal.vstr v.toList)]⟩

/-- A concrete well-formed TBSCertificate: a version-0 body whose
extensions set only the Basic Constraints CA flag. -/
def wTBS2 : TBS :=
  { version := 0, serial := [1], sig_algo_inner := ⟨[1], []⟩,
    dn_issuer := [], start := [], endT := [], dn_subject := [],
    public_key := ⟨16, 32, [0]⟩, v2_issuer_key_id := [], v2_subject_key_id := [],
    exts := ExtsField.obj 3 160 [("X509v3.BasicConstraints.is_ca", DSVal.vnat 1)] [],
    more_items := false }

/-- The certificate `wTBS2` decodes to. -/
def wCert2 : X509_Certificate :=
  buildCert [] ⟨[1], []⟩ [] wTBS2
    [("X509v3.BasicConstraints.is_ca", DSVal.vnat 1)] []

/-- A concrete well-formed TBSCertificate with equal subject and issuer
names and no extensions. -/
def wTBS5 : TBS :=
  { version := 0, serial := [], sig_algo_inner := ⟨[], []⟩,
    dn_issuer := [("X520.CommonName", ['a'])], start := [], endT := [],
    dn_subject := [("X520.CommonName", ['a'])],
    public_key := ⟨16, 32, []⟩, v2_issuer_key_id := [], v2_subject_key_id := [],
    exts := ExtsField.noObject, more_items := false }

/-- The certificate `wTBS5` decodes to. -/
def wCert5 : X509_Certificate :=
  buildCert [] ⟨[], []⟩ [] wTBS5 [] []

section StoreLemmas

theorem getAll_append (a b : DataStore) (k : String) :
    getAll (a ++ b) k = getAll a k ++ getAll b k := by
  simp [getAll, List.filter_append]

theorem getAll_eq_nil_of_keyFreeB {s : DataStore} {k : String}
    (h : keyFreeB s k = true) : getAll s k = [] := by
  unfold getAll
  have hf : s.filter (fun e => e.fst == k) = [] := by
    rw [List.filter_eq_nil_iff]
    intro e he
    have := List.all_eq_true.mp h e he
    simpa using this
  rw [hf]
  rfl

theorem getAll_eq_nil_of_has_value_false {s : DataStore} {k : String}
    (h : has_value s k = false) : getAll s k = [] := by
  unfold getAll
  have hf : s.filter (fun e => e.fst == k) = [] := by
    rw [List.filter_eq_nil_iff]
    intro e he
    exact List.any_eq_false.mp h e he
  rw [hf]
  rfl

theorem has_value_eq_false_of_keyFreeB {s : DataStore} {k : String}
    (h : keyFreeB s k = true) : has_value s k = false := by
  rw [has_value, List.any_eq_false]
  intro e he
  have := List.all_eq_true.mp h e he
  simpa using this

theorem keyFreeB_append {a b : DataStore} {k : String} :
    keyFreeB (a ++ b) k = (keyFreeB a k && keyFreeB b k) := by
  simp [keyFreeB, List.all_append]

theorem get1_u32bit_append_left_nil {a : DataStore} (b : DataStore) {k : String} (d : Nat)
    (h : getAll a k = []) :
    get1_u32bit (a ++ b) k d = get1_u32bit b k d := by
  rw [get1_u32bit, getAll_append, h, List.nil_append, get1_u32bit]

end StoreLemmas

section EqualityLemmas

theorem certEq_fields {a b : X509_Certificate} (h : certEq a b = true) :
    a.sig = b.sig ∧ a.sig_algo = b.sig_algo ∧ a.self_signed = b.self_signed ∧
    a.issuer = b.issuer ∧ a.subject = b.subject := by
  simpa [certEq, Bool.and_eq_true, beq_iff_eq, and_assoc] using h

end EqualityLemmas

section DnsLemmas

theorem isSuffixOf_tail_eq_drop_beq {cn name : List Char} :
    List.isSuffixOf cn.tail name =
      (name.drop (name.length - (cn.length - 1)) == cn.drop 1) := by
  have htail : cn.tail = cn.drop 1 := (List.drop_one cn).symm
  rw [htail, Bool.eq_iff_iff, List.isSuffixOf_iff_suffix, beq_iff_eq,
    List.suffix_iff_eq_drop, List.length_drop]
  constructor
  · intro h
    exact h.symm
  · intro h
    exact h.symm

theorem candMatch_eq_specGuarded (name cn : List Char) :
    candMatch name cn = specCandMatchGuarded name cn := by
  unfold candMatch specCandMatchGuarded
  by_cases he : cn = name
  · simp [he]
  · rw [if_neg he]
    have hbe : (cn == name) = false := beq_eq_false_iff_ne.mpr he
    rw [hbe, Bool.false_or]
    by_cases h1 : 2 < cn.length
    · by_cases h2 : cn.take 2 = ['*', '.']
      · by_cases h3 : cn.length < name.length
        · rw [if_pos ⟨h1, h2, h3⟩]
          have e1 : decide (2 < cn.length) = true := decide_eq_true h1
          have e2 : (cn.take 2 == ['*', '.']) = true := beq_iff_eq.mpr h2
          have e3 : decide (cn.length < name.length) = true := decide_eq_true h3
          simp only [e1, e2, e3, Bool.true_and]
          exact isSuffixOf_tail_eq_drop_beq
        · rw [if_neg (by tauto)]
          simp [h3]
      · rw [if_neg (by tauto)]
        simp [h2]
    · rw [if_neg (by tauto)]
      simp [h1]

theorem cert_subject_dns_match_eq_spec (name : List Char) (l : List (List Char)) :
    cert_subject_dns_match name l = l.any (fun cn => specCandMatchGuarded name cn) := by
  unfold cert_subject_dns_match
  induction l with
  | nil => rfl
  | cons cn rest ih =>
    rw [List.any_cons, List.any_cons, candMatch_eq_specGuarded, ih]

theorem candMatch_of_short {name cn : List Char} (h : cn.length ≤ 2) :
    candMatch name cn = (cn == name) := by
  unfold candMatch
  by_cases he : cn = name
  · simp [he]
  · rw [if_neg he, if_neg (fun hc => absurd hc.1 (by omega))]
    exact (beq_eq_false_iff_ne.mpr he).symm

theorem cert_subject_dns_match_short {name : List Char} {l : List (List Char)}
    (h : ∀ cn ∈ l, cn.length ≤ 2) :
    cert_subject_dns_match name l = true ↔ name ∈ l := by
  unfold cert_subject_dns_match
  rw [List.any_eq_true]
  constructor
  · rintro ⟨cn, hcn, hc⟩
    rw [candMatch_of_short (h cn hcn)] at hc
    exact beq_iff_eq.mp hc ▸ hcn
  · intro hm
    refine ⟨name, hm, ?_⟩
    rw [candMatch_of_short (h name hm)]
    exact beq_self_eq_true name

theorem matches_dns_name_or (c : X509_Certificate) {name : List Char} (h : name ≠ []) :
    matches_dns_name c name =
      (cert_subject_dns_match name (subject_info c "DNS") ||
       cert_subject_dns_match name (subject_info c "Name")) := by
  rw [matches_dns_name, if_neg h]
  by_cases h1 : cert_subject_dns_match name (subject_info c "DNS") = true
  · rw [if_pos h1, h1, Bool.true_or]
  · have h1f : cert_subject_dns_match name (subject_info c "DNS") = false :=
      Bool.eq_false_iff.mpr h1
    rw [if_neg h1, h1f, Bool.false_or]
    by_cases h2 : cert_subject_dns_match name (subject_info c "Name") = true
    · rw [if_pos h2, h2]
    · have h2f : cert_subject_dns_match name (subject_info c "Name") = false :=
        Bool.eq_false_iff.mpr h2
      rw [if_neg h2, h2f]

end DnsLemmas

section DecodeLemmas

theorem extContrib_ok_subj {e : ExtsField} {p : List Entry × List Entry}
    (h : extContrib e = Except.ok p) : p.fst = [] ∨ p.fst = ExtsField.subjEntries e := by
  cases e with
  | noObject =>
    simp only [extContrib, Except.ok.injEq] at h
    subst h
    left
    rfl
  | obj tt ct es ei =>
    simp only [extContrib] at h
    split at h
    · rw [Except.ok.injEq] at h
      subst h
      right
      rfl
    · split at h
      · exact Except.noConfusion h
      · rw [Except.ok.injEq] at h
        subst h
        left
        rfl

theorem extContrib_error_shape {e : ExtsField} {x : X509Error}
    (h : extContrib e = Except.error x) :
    ∃ tt ct, x = X509Error.extsBadTag tt ct := by
  cases e with
  | noObject => exact Except.noConfusion h
  | obj tt ct es ei =>
    simp only [extContrib] at h
    split at h
    · exact Except.noConfusion h
    · split at h
      · rw [Except.error.injEq] at h
        exact ⟨tt, ct, h.symm⟩
      · exact Except.noConfusion h

theorem getAll_scalar_version (t : TBS) :
    getAll (scalarSubjectEntries t) "X509.Certificate.version" = [DSVal.vnat t.version] := rfl

theorem getAll_scalar_path (t : TBS) :
    getAll (scalarSubjectEntries t) "X509v3.BasicConstraints.path_constraint" = [] := rfl

theorem getAll_path_entry_version (v : DSVal) :
    getAll [(("X509v3.BasicConstraints.path_constraint" : String), v)]
      "X509.Certificate.version" = [] := rfl

theorem get1_u32bit_version_pre (t : TBS) (extS : List Entry)
    (h1 : keyFreeB (dnContents t.dn_subject) "X509.Certificate.version" = true)
    (h2 : keyFreeB extS "X509.Certificate.version" = true) :
    get1_u32bit (dnContents t.dn_subject ++ (extS ++ scalarSubjectEntries t))
      "X509.Certificate.version" 0 = t.version % 4294967296 := by
  rw [get1_u32bit, getAll_append, getAll_append, getAll_eq_nil_of_keyFreeB h1,
    getAll_eq_nil_of_keyFreeB h2, getAll_scalar_version, List.nil_append, List.nil_append]
  rfl

theorem getAll_path_pre (t : TBS) (extS : List Entry)
    (h1 : keyFreeB (dnContents t.dn_subject) "X509v3.BasicConstraints.path_constraint" = true)
    (h2 : keyFreeB extS "X509v3.BasicConstraints.path_constraint" = true) :
    getAll (dnContents t.dn_subject ++ (extS ++ scalarSubjectEntries t))
      "X509v3.BasicConstraints.path_constraint" = [] := by
  rw [getAll_append, getAll_append, getAll_eq_nil_of_keyFreeB h1,
    getAll_eq_nil_of_keyFreeB h2, getAll_scalar_path]
  rfl

theorem is_CA_cert_append_path (c0 : X509_Certificate) (v : DSVal) :
    is_CA_cert { c0 with subject :=
      c0.subject ++ [("X509v3.BasicConstraints.path_constraint", v)] } = is_CA_cert c0 := by
  have h1 : getAll [(("X509v3.BasicConstraints.path_constraint" : String), v)]
      "X509v3.BasicConstraints.is_ca" = [] := rfl
  have h2 : getAll [(("X509v3.BasicConstraints.path_constraint" : String), v)]
      "X509v3.KeyUsage" = [] := rfl
  simp only [is_CA_cert, constraints, get1_u32bit, getAll_append, h1, h2, List.append_nil]

theorem buildCert_self_signed (sig : List Nat) (sa : AlgId) (bits : List Nat) (t : TBS)
    (extS extI : List Entry) :
    (buildCert sig sa bits t extS extI).self_signed = dnEq t.dn_subject t.dn_issuer := by
  simp only [buildCert]
  split
  · rfl
  · rfl

theorem x509_version_mk (sig : List Nat) (sa : AlgId) (bits : List Nat) (ss : Bool)
    (issuer subj : DataStore) :
    x509_version ⟨sig, sa, bits, ss, issuer, subj⟩ =
      get1_u32bit subj "X509.Certificate.version" 0 + 1 := rfl

theorem path_limit_mk (sig : List Nat) (sa : AlgId) (bits : List Nat) (ss : Bool)
    (issuer subj : DataStore) :
    path_limit ⟨sig, sa, bits, ss, issuer, subj⟩ =
      get1_u32bit subj "X509v3.BasicConstraints.path_constraint" 0 := rfl

theorem is_CA_cert_mk_append_path (sig : List Nat) (sa : AlgId) (bits : List Nat) (ss : Bool)
    (issuer subj : DataStore) (v : DSVal) :
    is_CA_cert ⟨sig, sa, bits, ss, issuer,
      subj ++ [("X509v3.BasicConstraints.path_constraint", v)]⟩ =
    is_CA_cert ⟨sig, sa, bits, ss, issuer, subj⟩ := by
  have h1 : getAll [(("X509v3.BasicConstraints.path_constraint" : String), v)]
      "X509v3.BasicConstraints.is_ca" = [] := rfl
  have h2 : getAll [(("X509v3.BasicConstraints.path_constraint" : String), v)]
      "X509v3.KeyUsage" = [] := rfl
  simp only [is_CA_cert, constraints, get1_u32bit, getAll_append, h1, h2, List.append_nil]

theorem getAll_path_entry_self (v : DSVal) :
    getAll [(("X509v3.BasicConstraints.path_constraint" : String), v)]
      "X509v3.BasicConstraints.path_constraint" = [v] := rfl

theorem x509_version_buildCert (sig : List Nat) (sa : AlgId) (bits : List Nat) (t : TBS)
    (extS extI : List Entry)
    (h1 : keyFreeB (dnContents t.dn_subject) "X509.Certificate.version" = true)
    (h2 : keyFreeB extS "X509.Certificate.version" = true)
    (hv : t.version ≤ 2) :
    x509_version (buildCert sig sa bits t extS extI) = t.version + 1 := by
  have hmod : t.version % 4294967296 = t.version := Nat.mod_eq_of_lt (by omega)
  have hpre := get1_u32bit_version_pre t extS h1 h2
  simp only [buildCert]
  split
  · rw [x509_version_mk, get1_u32bit, getAll_append,
      getAll_path_entry_version, List.append_nil, ← get1_u32bit, hpre, hmod]
  · rw [x509_version_mk, hpre, hmod]

theorem force_decode_ok_shape {sig : List Nat} {sa : AlgId} {bits : List Nat} {t : TBS}
    {c : X509_Certificate} (h : force_decode sig sa bits t = Except.ok c) :
    ∃ p : List Entry × List Entry,
      extContrib t.exts = Except.ok p ∧
      c = buildCert sig sa bits t p.fst p.snd ∧
      t.version ≤ 2 := by
  rw [force_decode] at h
  split at h
  · exact Except.noConfusion h
  · split at h
    · exact Except.noConfusion h
    · split at h
      · exact Except.noConfusion h
      · split at h
        next e heq => exact Except.noConfusion h
        next p extS extI heq =>
          split at h
          · exact Except.noConfusion h
          · rw [Except.ok.injEq] at h
            subst h
            refine ⟨(extS, extI), heq, rfl, by omega⟩

end DecodeLemmas

/-- C2: after a successful decode, a CA certificate (per `is_CA_cert`)
for which neither the extensions nor the subject DN attributes recorded an
explicit path-length-constraint value reads the "no limit" sentinel from
`path_limit` when the decoded version field is below 2, and 0 when it is
2; a non-CA certificate with no stored path-length value reads 0.  (The
version-key hypotheses rule out extension contributions shadowing the
decoder's own reserved version entry, which the real extension processor
never writes.) -/
theorem path_limit_default (sig : List Nat) (sa : AlgId) (bits : List Nat) (t : TBS)
    (c : X509_Certificate)
    (hdec : force_decode sig sa bits t = Except.ok c)
    (hp1 : keyFreeB (dnContents t.dn_subject) "X509v3.BasicConstraints.path_constraint" = true)
    (hp2 : keyFreeB (ExtsField.subjEntries t.exts) "X509v3.BasicConstraints.path_constraint" = true)
    (hv1 : keyFreeB (dnContents t.dn_subject) "X509.Certificate.version" = true)
    (hv2 : keyFreeB (ExtsField.subjEntries t.exts) "X509.Certificate.version" = true) :
    (is_CA_cert c = true →
       (t.version < 2 → path_limit c = NO_CERT_PATH_LIMIT) ∧
       (t.version = 2 → path_limit c = 0)) ∧
    (is_CA_cert c = false → path_limit c = 0) := by
  obtain ⟨p, hext, hc, hver⟩ := force_decode_ok_shape hdec
  obtain ⟨pS, pI⟩ := p
  have hsub := extContrib_ok_subj hext
  have hpS_path : keyFreeB pS "X509v3.BasicConstraints.path_constraint" = true := by
    rcases hsub with h | h
    · have hps : pS = [] := h
      rw [hps]
      rfl
    · have hps : pS = ExtsField.subjEntries t.exts := h
      rw [hps]
      exact hp2
  have hpS_ver : keyFreeB pS "X509.Certificate.version" = true := by
    rcases hsub with h | h
    · have hps : pS = [] := h
      rw [hps]
      rfl
    · have hps : pS = ExtsField.subjEntries t.exts := h
      rw [hps]
      exact hv2
  have hmod : t.version % 4294967296 = t.version := Nat.mod_eq_of_lt (by omega)
  have hxv0 : get1_u32bit (dnContents t.dn_subject ++ (pS ++ scalarSubjectEntries t))
      "X509.Certificate.version" 0 = t.version := by
    rw [get1_u32bit_version_pre t pS hv1 hpS_ver, hmod]
  have hpre_path := getAll_path_pre t pS hp1 hpS_path
  have hc2 : c = buildCert sig sa bits t pS pI := hc
  subst hc2
  simp only [buildCert]
  split
  next hcond =>
    obtain ⟨hCA0, hhv⟩ := hcond
    constructor
    · intro _
      constructor
      · intro hlt
        rw [x509_version_mk, hxv0, if_pos (by omega), path_limit_mk, get1_u32bit,
          getAll_append, hpre_path, List.nil_append, getAll_path_entry_self]
        rfl
      · intro h2
        rw [x509_version_mk, hxv0, if_neg (by omega), path_limit_mk, get1_u32bit,
          getAll_append, hpre_path, List.nil_append, getAll_path_entry_self]
        rfl
    · intro hF
      rw [is_CA_cert_mk_append_path] at hF
      rw [hCA0] at hF
      exact Bool.noConfusion hF
  next hcond =>
    have hhv : has_value (dnContents t.dn_subject ++ (pS ++ scalarSubjectEntries t))
        "X509v3.BasicConstraints.path_constraint" = false := by
      apply has_value_eq_false_of_keyFreeB
      rw [keyFreeB_append, keyFreeB_append, hp1, hpS_path]
      rfl
    constructor
    · intro hT
      exact (hcond ⟨hT, hhv⟩).elim
    · intro _
      rw [path_limit_mk, get1_u32bit, hpre_path]

/-- Witness for C2: decoding the concrete version-0 CA body `wTBS2`
succeeds and the resulting certificate's path limit reads the "no limit"
sentinel. -/
theorem path_limit_default_witness :
    path_limit wCert2 = NO_CERT_PATH_LIMIT :=
  ((path_limit_default [] ⟨[1], []⟩ [] wTBS2 wCert2 rfl rfl rfl rfl rfl).1
    (by decide)).1 (by decide)

/-- C3: every input whose decoded version field is 0, 1 or 2 and that is
otherwise well-formed decodes successfully and reports the version field
plus 1 from `x509_version`; every input whose version field is any other
value fails with a Decoding Error and produces no certificate. -/
theorem version_decode :
    (∀ (sig : List Nat) (sa : AlgId) (bits : List Nat) (t : TBS),
       t.version ≤ 2 →
       restWellFormed sa t →
       keyFreeB (dnContents t.dn_subject) "X509.Certificate.version" = true →
       keyFreeB (ExtsField.subjEntries t.exts) "X509.Certificate.version" = true →
       ∃ c, force_decode sig sa bits t = Except.ok c ∧
            x509_version c = t.version + 1) ∧
    (∀ (sig : List Nat) (sa : AlgId) (bits : List Nat) (t : TBS),
       2 < t.version →
       force_decode sig sa bits t = Except.error (X509Error.unknownVersion t.version) ∧
       X509Error.kind (X509Error.unknownVersion t.version) = ErrKind.decodingError) := by
  constructor
  · intro sig sa bits t hv hw hk1 hk2
    obtain ⟨hsa, hpt, hpc, ⟨p, hp⟩, hmi⟩ := hw
    obtain ⟨pS, pI⟩ := p
    have hkS : keyFreeB pS "X509.Certificate.version" = true := by
      rcases extContrib_ok_subj hp with h | h
      · have hps : pS = [] := h
        rw [hps]
        rfl
      · have hps : pS = ExtsField.subjEntries t.exts := h
        rw [hps]
        exact hk2
    refine ⟨buildCert sig sa bits t pS pI, ?_,
      x509_version_buildCert sig sa bits t pS pI hk1 hkS hv⟩
    rw [force_decode, if_neg (by omega), if_neg (by simp [hsa]),
      if_neg (by simp [hpt, hpc]), hp]
    simp [hmi]
  · intro sig sa bits t hv
    exact ⟨by rw [force_decode, if_pos hv], rfl⟩

/-- C4: whenever the signature algorithm recorded inside the signed body
differs from the outer envelope's, decode fails with a Decoding Error (no
certificate is produced); when the two identifiers are equal, the
algorithm-mismatch check never fires. -/
theorem algo_mismatch_rejected :
    (∀ (sig : List Nat) (sa : AlgId) (bits : List Nat) (t : TBS),
       sa ≠ t.sig_algo_inner →
       ∃ e, force_decode sig sa bits t = Except.error e ∧
            X509Error.kind e = ErrKind.decodingError) ∧
    (∀ (sig : List Nat) (sa : AlgId) (bits : List Nat) (t : TBS),
       sa = t.sig_algo_inner →
       force_decode sig sa bits t ≠ Except.error X509Error.algoMismatch) := by
  constructor
  · intro sig sa bits t hne
    by_cases hv : 2 < t.version
    · exact ⟨X509Error.unknownVersion t.version, by rw [force_decode, if_pos hv], rfl⟩
    · refine ⟨X509Error.algoMismatch, ?_, rfl⟩
      rw [force_decode, if_neg hv, if_pos hne]
  · intro sig sa bits t heq hbad
    rw [force_decode] at hbad
    split at hbad
    · rw [Except.error.injEq] at hbad
      exact X509Error.noConfusion hbad
    · split at hbad
      next hne => exact hne heq
      next hne =>
        split at hbad
        · rw [Except.error.injEq] at hbad
          exact X509Error.noConfusion hbad
        · split at hbad
          next e hext =>
            rw [Except.error.injEq] at hbad
            obtain ⟨tt, ct, hshape⟩ := extContrib_error_shape hext
            rw [hbad] at hshape
            exact X509Error.noConfusion hshape
          next pr extS extI hext =>
            split at hbad
            · rw [Except.error.injEq] at hbad
              exact X509Error.noConfusion hbad
            · exact Except.noConfusion hbad

/-- Witness for C4 at a concrete mismatching pair of algorithm
identifiers. -/
theorem algo_mismatch_rejected_witness :
    ∃ e, force_decode [] ⟨[1], []⟩ [] wTBS5 = Except.error e ∧
         X509Error.kind e = ErrKind.decodingError :=
  algo_mismatch_rejected.1 [] ⟨[1], []⟩ [] wTBS5 (by decide)

/-- C5: after a successful decode the self-signed flag is set exactly when
the subject and issuer DNs are equal as unordered multisets of
(attribute-type, value) pairs, and the DN comparison is invariant under
permutation of either side's attribute list. -/
theorem self_signed_multiset (sig : List Nat) (sa : AlgId) (bits : List Nat) (t : TBS)
    (c : X509_Certificate) (hdec : force_decode sig sa bits t = Except.ok c) :
    (c.self_signed = true ↔
       Multiset.ofList t.dn_subject = Multiset.ofList t.dn_issuer) ∧
    (∀ d d2 e : DN, d.Perm d2 → dnEq d e = dnEq d2 e ∧ dnEq e d = dnEq e d2) := by
  constructor
  · obtain ⟨p, hext, hc, hver⟩ := force_decode_ok_shape hdec
    have hc2 : c = buildCert sig sa bits t p.fst p.snd := hc
    subst hc2
    rw [buildCert_self_signed, dnEq]
    simp
  · intro d d2 e hp
    have hm : Multiset.ofList d = Multiset.ofList d2 := Quot.sound hp
    exact ⟨by rw [dnEq, dnEq, hm], by rw [dnEq, dnEq, hm]⟩

/-- Witness for C5: the concrete decode of `wTBS5` yields the self-signed
flag exactly when its (equal) subject and issuer DN multisets agree. -/
theorem self_signed_multiset_witness :
    wCert5.self_signed = true ↔
      Multiset.ofList wTBS5.dn_subject = Multiset.ofList wTBS5.dn_issuer :=
  (self_signed_multiset [] ⟨[], []⟩ [] wTBS5 wCert5 rfl).1

/-- C1: `is_CA_cert` returns true exactly when the stored Basic
Constraints CA flag reads nonzero and the Key Usage constraints are the
"no constraints recorded" sentinel or include the certificate-signing bit;
in every other case — in particular when no Basic Constraints value was
stored at all — it returns false. -/
theorem is_CA_cert_characterization (c : X509_Certificate) :
    (is_CA_cert c = true ↔
      (get1_u32bit c.subject "X509v3.BasicConstraints.is_ca" 0 ≠ 0 ∧
       (constraints c = NO_CONSTRAINTS ∨ Nat.land (constraints c) KEY_CERT_SIGN ≠ 0))) ∧
    (has_value c.subject "X509v3.BasicConstraints.is_ca" = false → is_CA_cert c = false) := by
  constructor
  · rw [is_CA_cert]
    split
    next hz => simp [hz]
    next hz =>
      split
      next hk =>
        constructor
        · intro _
          exact ⟨hz, Or.elim hk Or.inr Or.inl⟩
        · intro _
          rfl
      next hk =>
        constructor
        · intro hFalse
          exact absurd hFalse (by simp)
        · rintro ⟨_, hOr⟩
          exact absurd (Or.elim hOr Or.inr Or.inl) hk
  · intro h
    have h0 : get1_u32bit c.subject "X509v3.BasicConstraints.is_ca" 0 = 0 := by
      rw [get1_u32bit, getAll_eq_nil_of_has_value_false h]
    rw [is_CA_cert, if_pos h0]

/-- C8: two certificates compare equal exactly when their signature bytes,
signature algorithm identifiers, self-signed flags, issuer stores and
subject stores are pairwise equal; the raw signed-body bytes do not
participate (certificates differing only there compare equal), and
`operator!=` is the exact negation of `operator==`. -/
theorem cert_equality_characterization :
    (∀ a b : X509_Certificate,
       certEq a b = true ↔
         (a.sig = b.sig ∧ a.sig_algo = b.sig_algo ∧ a.self_signed = b.self_signed ∧
          a.issuer = b.issuer ∧ a.subject = b.subject)) ∧
    (∀ a b : X509_Certificate, certNe a b = !certEq a b) ∧
    (∀ (a : X509_Certificate) (bits : List Nat),
       certEq a { a with tbs_bits := bits } = true) := by
  refine ⟨?_, ?_, ?_⟩
  · intro a b
    constructor
    · exact certEq_fields
    · rintro ⟨h1, h2, h3, h4, h5⟩
      simp [certEq, h1, h2, h3, h4, h5]
  · intro a b
    rfl
  · intro a bits
    simp [certEq]

/-- C9: rendering is deterministic with respect to certificate equality:
with the external registries and key-decode collaborators fixed, two
certificates that compare equal under `operator==` render byte-identical
textual summaries. -/
theorem to_string_deterministic (env : RenderEnv) (a b : X509_Certificate)
    (h : certEq a b = true) : to_string env a = to_string env b := by
  obtain ⟨h1, h2, h3, h4, h5⟩ := certEq_fields h
  cases a with
  | mk s1 sa1 tb1 ss1 is1 su1 =>
    cases b with
    | mk s2 sa2 tb2 ss2 is2 su2 =>
      dsimp only at h1 h2 h3 h4 h5
      subst h1
      subst h2
      subst h3
      subst h4
      subst h5
      rfl

/-- Witness for C9 at two concrete equal certificates. -/
theorem to_string_deterministic_witness :
    to_string envTriv wCert9a = to_string envTriv wCert9b :=
  to_string_deterministic envTriv wCert9a wCert9b (by decide)

/-- C10: a stored candidate of length at most two (such as "*" or "*.")
never takes the wildcard branch — the wildcard path additionally requires
the candidate be longer than two characters — so such a candidate can
produce a match only by exact string equality with the input. -/
theorem short_candidate_exact_only :
    (∀ name cn : List Char, cn.length ≤ 2 → candMatch name cn = (cn == name)) ∧
    (∀ (c : X509_Certificate) (name : List Char),
       (∀ cn ∈ subject_info c "DNS", cn.length ≤ 2) →
       (∀ cn ∈ subject_info c "Name", cn.length ≤ 2) →
       (matches_dns_name c name = true ↔
          name ≠ [] ∧ (name ∈ subject_info c "DNS" ∨ name ∈ subject_info c "Name"))) := by
  refine ⟨fun name cn h => candMatch_of_short h, ?_⟩
  intro c name hD hN
  by_cases hn : name = []
  · simp [matches_dns_name, hn]
  · rw [matches_dns_name_or c hn, Bool.or_eq_true,
      cert_subject_dns_match_short hD, cert_subject_dns_match_short hN]
    simp [hn]

/-- C6 counterexample: the claim's wildcard rule carries no requirement on
the candidate's own length, so the stored entry "*." matches the input
"ab." under it (the suffix "." of the strictly longer input equals the
candidate from index 1), while the code additionally requires the
candidate be longer than two characters and rejects the pair. -/
theorem dns_match_rule_counterexample :
    spec_matches_dns_name starDotCert (String.toList "ab.") = true ∧
    matches_dns_name starDotCert (String.toList "ab.") = false := by
  constructor
  · decide
  · decide

/-- C6 (amended): with the candidate-length requirement added — the
wildcard path applies only to candidates longer than two characters —
`matches_dns_name` computes exactly the stated algorithm: the empty input
never matches, each DNS entry is tried by exact match and by the wildcard
rule, and the identical algorithm is repeated over the legacy common-name
entries before failing. -/
theorem dns_match_algorithm (c : X509_Certificate) (name : List Char) :
    matches_dns_name c name = spec_matches_dns_name_guarded c name := by
  by_cases hn : name = []
  · rw [matches_dns_name, spec_matches_dns_name_guarded, if_pos hn, if_pos hn]
  · rw [matches_dns_name_or c hn, spec_matches_dns_name_guarded, if_neg hn,
      cert_subject_dns_match_eq_spec, cert_subject_dns_match_eq_spec]

/-- C7 counterexample: against the single DNS entry "*.com" the claim
expects `matches_dns_name "mail.example.com"` to return false, but the
code's wildcard rule is a plain suffix comparison: ".com" is a suffix of
the strictly longer "mail.example.com", so the match succeeds. -/
theorem dns_match_star_com_counterexample :
    matches_dns_name (dnsCert "*.com") (String.toList "mail.example.com") = true := by
  decide

/-- C7 (amended): "mail.example.com" matches the single DNS entry
"*.example.com"; it also matches the single DNS entry "*.com", since the
wildcard rule is a suffix comparison and the strict-longer check passes;
the empty name matches no certificate; and "example.com" matches the
exact DNS entry "example.com". -/
theorem dns_match_examples :
    matches_dns_name (dnsCert "*.example.com") (String.toList "mail.example.com") = true ∧
    matches_dns_name (dnsCert "*.com") (String.toList "mail.example.com") = true ∧
    (∀ c : X509_Certificate, matches_dns_name c [] = false) ∧
    matches_dns_name (dnsCert "example.com") (String.toList "example.com") = true := by
  refine ⟨by decide, by decide, ?_, by decide⟩
  intro c
  rfl

end Botan
